import Mathlib

/-!
# telnet-chat: room selection, command dispatch and the messaging loop

A shallow embedding of `src/server/server.go` (package `server`): `Server.ListRooms`,
`Server.SelectRoom`, `Server.HandleCommands`, `Server.HandleMessages` and
`Server.HandleConnection`.

* A Go `string` is a Lean `String`, a Go `int` is an `Int` (64 bit: only `strconv.Atoi`
  can produce a value from text, and its range check is kept).
* A slice lookup `s.Rooms[i]` outside `0 ≤ i < len(s.Rooms)` is the Go runtime panic
  "index out of range"; the result type `Run` records it together with the source line.
* Everything the outside world decides (whether a write to the client succeeds, what
  line the client sends back, what the clock shows) is an explicit argument, so a
  statement quantified over these arguments covers every outcome of the I/O.
* The packages `connection` and `room` are not part of the sources at hand; their methods
  are modelled from the specification and marked as such.
* Diagnostic logging through package `log` has no effect on sessions, rooms or the
  message log and is left out.
-/

namespace TelnetChat

/-! ## Go runtime -/

/-- The slice lookups of server.go, named by what the surrounding code is doing. -/
inductive Site where
  /-- line 66, `s.Rooms[roomIndex].AddUser(c)` in `SelectRoom` -/
  | selectRoom
  /-- line 87, `s.Rooms[c.Room].WriteMessage(..)` in the `/nome` branch -/
  | rename
  /-- line 92, `room := s.Rooms[c.Room]` in the `/xau` branch -/
  | leave
  /-- line 117, `room := s.Rooms[c.Room]` in `HandleMessages` -/
  | chat
  deriving DecidableEq, Repr

/-- Result of running Go code: it finishes with a value, or the runtime panics with
"index out of range" at one of the lookups. -/
inductive Run (α : Type) where
  | done (a : α)
  | panic (site : Site)
  deriving DecidableEq, Repr

/-! ## strconv and fmt -/

/-- The digit loop of `strconv.Atoi`: `ch -= '0'; if ch > 9 { syntax error }; n = n*10 + ch`. -/
def parseDigits : List Char → Nat → Option Nat
  | [], n => some n
  | ch :: rest, n =>
    if 48 ≤ ch.toNat ∧ ch.toNat ≤ 57 then parseDigits rest (n * 10 + (ch.toNat - 48))
    else none

/-- Go `strconv.Atoi` on a 64 bit platform: an optional sign, then one or more decimal
digits, and the value must fit `int`; `none` stands for a non-nil error (syntax or range). -/
def Atoi (s : String) : Option Int :=
  match s.data with
  | [] => none
  | ch :: rest =>
    let digits := if ch = '-' ∨ ch = '+' then rest else ch :: rest
    if digits = [] then none
    else
      match parseDigits digits 0 with
      | none => none
      | some n =>
        let v : Int := if ch = '-' then -(n : Int) else (n : Int)
        if -(2 : Int) ^ 63 ≤ v ∧ v < (2 : Int) ^ 63 then some v else none

/-- The verb `%d` of `fmt.Sprintf` applied to an `int`: its decimal text. -/
def fmtInt (i : Int) : String := toString i

/-! ## package connection -/

/-- The struct `connection.Connection`, with the fields server.go uses: `UserName`,
`Room` (an `int`, the index into `Server.Rooms` of the room of the session) and `Open`.
`Conn` is the transport; of it the model keeps the remote endpoint, which is the identity
of the session, in `Conn` and the texts handed to the stream, oldest first, in `Sent`. -/
structure Connection where
  UserName : String
  Conn : String
  Room : Int
  Open : Bool
  Sent : List String
  deriving DecidableEq, Repr

/-- Modelled from the spec: `Connection.SendMessage`, which is not in the sources
(spec 4.1 `sendLine`: writes one line to the client, fails with a transport error when
the stream is broken). `ok` is the outcome of the write; the second component is
`err != nil`. -/
def Connection.SendMessage (c : Connection) (text : String) (ok : Bool) : Connection × Bool :=
  ({ c with Sent := c.Sent ++ [text] }, !ok)

/-- Modelled from the spec: `Connection.SendWithResponse`, which is not in the sources
(spec 4.1 `promptAndRead`: writes a prompt, then returns the one line the client sends,
trimmed of line terminators; an empty line gives the empty string, not an error; a read
failure or a closed stream gives a transport error). `reply` is what the transport
delivers: `none` for the transport error, `some line` for a line. -/
def Connection.SendWithResponse (c : Connection) (prompt : String) (reply : Option String) :
    Connection × Option String :=
  ({ c with Sent := c.Sent ++ [prompt] }, reply)

/-- Modelled from the spec: `Connection.SendError`, which is not in the sources
(spec 4.1 `sendError`: writes a user-visible error line, best effort, never fails the
control flow of the caller). -/
def Connection.SendError (c : Connection) (text : String) : Connection :=
  { c with Sent := c.Sent ++ [text] }

/-- Modelled from the spec: `Connection.Close`, which is not in the sources
(spec 4.1 `close`: idempotent, marks the session closed and releases the transport). -/
def Connection.Close (c : Connection) : Connection :=
  { c with Open := false }

/-! ## package room -/

/-- The struct `room.Room` as `InitializeRooms` builds it: `Name`, the member map
`Connections` (here the list of the identities of the member sessions) and the channel
`WriteChan` (here the messages handed to it, oldest first). -/
structure Room where
  Name : String
  Connections : List String
  WriteChan : List String
  deriving DecidableEq, Repr

/-- Modelled from the spec: `Room.AddUser`, which is not in the sources (spec 4.2
`addMember`: registers the session as a member, sets its room reference to this room and
must not duplicate a session already present). The room reference of the session is the
integer `Connection.Room`; the index of the room is known to `SelectRoom` only, which
assigns it on line 67, right after the call. -/
def Room.AddUser (r : Room) (c : Connection) : Room :=
  { r with Connections := if c.Conn ∈ r.Connections then r.Connections
                          else r.Connections ++ [c.Conn] }

/-- Modelled from the spec: the cleared room reference, which the sources do not show
(spec 3: the current room reference of a session is nullable). `Connection.Room` is an
`int` that server.go uses as an index into `Server.Rooms`, so the cleared reference is
an `int` that is an index into no room list; the model takes `-1`. -/
def noRoom : Int := -1

/-- Modelled from the spec: `Room.RemoveUser`, which is not in the sources (spec 4.2
`removeMember`: unregisters the session; clears its room reference if it currently
points at this room; no-op if the session is not a member). The one call, line 93, is
made on `s.Rooms[c.Room]`, the room the reference of the session points at, so for a
member the reference is cleared. The result is the room and the connection after the
call. -/
def Room.RemoveUser (r : Room) (c : Connection) : Room × Connection :=
  if c.Conn ∈ r.Connections then
    ({ r with Connections := r.Connections.filter (fun m => m ≠ c.Conn) },
     { c with Room := noRoom })
  else (r, c)

/-- Modelled from the spec: `Room.WriteMessage`, which is not in the sources (spec 4.2
`broadcast`: enqueues the text for delivery to the members). -/
def Room.WriteMessage (r : Room) (text : String) : Room :=
  { r with WriteChan := r.WriteChan ++ [text] }

/-! ## package server -/

/-- The struct `Server`: the room list and the message log file (the records written to
it, oldest first). `Running` and `Listener` belong to the accept loop. -/
structure Server where
  Rooms : List Room
  LogFile : List String
  deriving DecidableEq, Repr

/-- The package variable `helpMessage`. -/
def helpMessage : String :=
  "\nAlguns comandos disponiveis no char:\n/ajuda: exibe esta ajuda\n/nome: altera seu nome\n/xau: sai da sala atual. \n/sair: sai do telnet-chat.\n"

/-- The loop of `ListRooms` from index `i` on: `str += fmt.Sprintf("\t%d: %s\n", i, room.Name)`. -/
def listRoomsFrom : List Room → Nat → String → String
  | [], _, str => str
  | room :: rest, i, str =>
    listRoomsFrom rest (i + 1) (str ++ ("\t" ++ fmtInt (i : Int) ++ ": " ++ room.Name ++ "\n"))

/-- `Server.ListRooms` (lines 32-38). -/
def Server.ListRooms (s : Server) : String :=
  listRoomsFrom s.Rooms 0 "Salas disponiveis:\n"

/-- Outcomes of the two transport operations of one call of `SelectRoom`. -/
structure SelectEnv where
  /-- whether the write of the headline succeeds -/
  sendOk : Bool
  /-- what `SendWithResponse(roomList)` delivers -/
  reply : Option String
  deriving DecidableEq, Repr

/-- The five `return fmt.Errorf(..)` of `SelectRoom`, in source order. -/
inductive SelectError where
  /-- line 45: the headline could not be sent -/
  | send
  /-- line 50: no reply could be read -/
  | read
  /-- line 56: the reply is empty -/
  | noRoom
  /-- line 61: `strconv.Atoi` failed -/
  | notNumber
  /-- line 63: the index is rejected by the bound check -/
  | invalidRoom
  deriving DecidableEq, Repr

/-- The headline `SelectRoom` sends first. -/
def selectHeadline : String :=
  "Selecione a sala que deseja entrar digitando o numero da sala:\n"

/-- `Server.SelectRoom` (lines 42-70). The result is the server and the connection after
the call and the returned `error` (`none` is `nil`). -/
def Server.SelectRoom (s : Server) (c : Connection) (env : SelectEnv) :
    Run (Server × Connection × Option SelectError) :=
  let roomList := s.ListRooms
  let sent := c.SendMessage selectHeadline env.sendOk
  if sent.2 then .done (s, sent.1, some .send)
  else
    let asked := sent.1.SendWithResponse roomList env.reply
    match asked.2 with
    | none => .done (s, asked.1, some .read)
    | some room =>
      if room = "" then
        .done (s, asked.1.SendError "Necessario uma sala para entrar...", some .noRoom)
      else
        match Atoi room with
        | none => .done (s, asked.1, some .notNumber)
        | some roomIndex =>
          if roomIndex > (s.Rooms.length : Int) ∨ roomIndex < 0 then
            .done (s, asked.1, some .invalidRoom)
          else
            match s.Rooms[roomIndex.toNat]? with
            | none => .panic .selectRoom
            | some r =>
              .done ({ s with Rooms := s.Rooms.set roomIndex.toNat (r.AddUser asked.1) },
                     { asked.1 with Room := roomIndex }, none)

/-- Everything the outside world decides during one iteration of the loop of
`HandleMessages`. A field is read only when the iteration performs that operation. -/
structure Turn where
  /-- what `SendWithResponse(">> ")` delivers (line 106) -/
  line : Option String
  /-- the text `time.Now().Format(time.Kitchen)` gives (line 116) -/
  now : String
  /-- whether the write of the help text succeeds (line 76) -/
  helpOk : Bool
  /-- what `SendWithResponse("Novo nome: ")` delivers (line 81) -/
  newName : Option String
  /-- the transport outcomes of the `SelectRoom` call of the `/xau` branch (line 94) -/
  select : SelectEnv
  deriving DecidableEq, Repr

/-- The notice of the `/nome` branch: `fmt.Sprintf("Usuario %s mudou o nome para %s\n", ..)`. -/
def renameNotice (oldName newName : String) : String :=
  "Usuario " ++ oldName ++ " mudou o nome para " ++ newName ++ "\n"

/-- The lookup `s.Rooms[i]` for an `int` index: `none` is the runtime panic. -/
def Server.roomAt (s : Server) (i : Int) : Option Room :=
  if 0 ≤ i then s.Rooms[i.toNat]? else none

/-- Writes back the room at index `i` (rooms are held by pointer, so a method call on
`s.Rooms[i]` changes the room in the list). -/
def Server.setRoom (s : Server) (i : Int) (r : Room) : Server :=
  { s with Rooms := s.Rooms.set i.toNat r }

/-- `Server.HandleCommands` (lines 73-101). The result is the server and the connection
after the call and the returned `bool`. -/
def Server.HandleCommands (s : Server) (message : String) (c : Connection) (t : Turn) :
    Run (Server × Connection × Bool) :=
  if message = "/ajuda" then
    let sent := c.SendMessage helpMessage t.helpOk
    if sent.2 then .done (s, sent.1, true)
    else .done (s, sent.1, false)
  else if message = "/nome" then
    let asked := c.SendWithResponse "Novo nome: " t.newName
    match asked.2 with
    | none => .done (s, asked.1, true)
    | some newName =>
      match s.roomAt asked.1.Room with
      | none => .panic .rename
      | some r =>
        .done (s.setRoom asked.1.Room (r.WriteMessage (renameNotice asked.1.UserName newName)),
               { asked.1 with UserName := newName }, true)
  else if message = "/xau" then
    match s.roomAt c.Room with
    | none => .panic .leave
    | some room =>
      let left := room.RemoveUser c
      match (s.setRoom c.Room left.1).SelectRoom left.2 t.select with
      | .panic site => .panic site
      | .done (s1, c1, _) => .done (s1, c1, true)
  else if message = "/sair" then
    .done (s, c.Close, true)
  else
    .done (s, c, false)

/-- The chat line of `HandleMessages`: `fmt.Sprintf("<%s> (%s): %s\n", now, c.UserName, text)`. -/
def chatLine (now userName text : String) : String :=
  "<" ++ now ++ "> (" ++ userName ++ "): " ++ text ++ "\n"

/-- The record of `HandleMessages` for the message log: `fmt.Sprintf("%s: %s", room.Name, message)`. -/
def logRecord (roomName message : String) : String :=
  roomName ++ ": " ++ message

/-- `Server.HandleMessages` (lines 104-128), run on the outcomes of its successive
iterations. The loop makes one iteration per element of `turns` for as long as `c.Open`
holds and no read fails; the result is the state when the loop has returned or, when
`turns` is used up first, the state in which it waits for the next line. -/
def Server.HandleMessages (s : Server) (c : Connection) : List Turn → Run (Server × Connection)
  | [] => .done (s, c)
  | t :: turns =>
    if c.Open = true then
      let asked := c.SendWithResponse ">> " t.line
      match asked.2 with
      | none => .done (s, asked.1)
      | some text =>
        match s.HandleCommands text asked.1 t with
        | .panic site => .panic site
        | .done (s1, c1, true) => Server.HandleMessages s1 c1 turns
        | .done (s1, c1, false) =>
          let message := chatLine t.now c1.UserName text
          match s1.roomAt c1.Room with
          | none => .panic .chat
          | some room =>
            let s2 := s1.setRoom c1.Room (room.WriteMessage message)
            let logStr := logRecord room.Name message
            Server.HandleMessages { s2 with LogFile := s2.LogFile ++ [logStr] } c1 turns
    else .done (s, c)

/-- `Server.HandleConnection` (lines 131-148): `name` is what
`SendWithResponse("Nome desejado: ")` delivers, `select` the transport outcomes of the
`SelectRoom` call, `turns` the iterations of the messaging loop it starts. -/
def Server.HandleConnection (s : Server) (c : Connection) (name : Option String)
    (select : SelectEnv) (turns : List Turn) : Run (Server × Connection) :=
  let asked := c.SendWithResponse "Nome desejado: " name
  match asked.2 with
  | none => .done (s, asked.1.Close)
  | some username =>
    if username = "" then .done (s, asked.1.Close)
    else
      let c1 := { asked.1 with UserName := username }
      match s.SelectRoom c1 select with
      | .panic site => .panic site
      | .done (s1, c2, some _) => .done (s1, c2.Close)
      | .done (s1, c2, none) => s1.HandleMessages c2 turns

/-! ## Observations and invariants -/

/-- The members of the room at index `i` (no members when there is no such room). -/
def Server.members (s : Server) (i : Nat) : List String :=
  match s.Rooms[i]? with
  | some r => r.Connections
  | none => []

/-- The messages handed to the channel of the room at index `i`, oldest first. -/
def Server.queue (s : Server) (i : Nat) : List String :=
  match s.Rooms[i]? with
  | some r => r.WriteChan
  | none => []

/-- The room index of the connection is a valid index into the room list. -/
def InBounds (s : Server) (c : Connection) : Prop :=
  0 ≤ c.Room ∧ c.Room < (s.Rooms.length : Int)

/-- The room list of the scenarios of the specification: `General` and `Random`, both empty. -/
def sampleRooms : List Room :=
  [{ Name := "General", Connections := [], WriteChan := [] },
   { Name := "Random", Connections := [], WriteChan := [] }]

/-- A server with the sample rooms and an empty message log. -/
def sampleServer : Server := { Rooms := sampleRooms, LogFile := [] }

/-- A connection as it is handed to `HandleConnection`: open, no name, no room. -/
def freshConn : Connection :=
  { UserName := "", Conn := "10.0.0.7:40312", Room := noRoom, Open := true, Sent := [] }

/-- An iteration in which the client sends `text` as its line and every write succeeds. -/
def lineTurn (text : String) : Turn :=
  { line := some text, now := "3:04PM", helpOk := true, newName := none,
    select := { sendOk := true, reply := none } }

/-- The session of the scenarios of the specification after it has joined `General`. -/
def anaConn : Connection :=
  { UserName := "Ana", Conn := "10.0.0.7:40312", Room := 0, Open := true, Sent := [] }

/-- The sample server with `anaConn` as the only member of `General`. -/
def anaServer : Server :=
  { Rooms := [{ Name := "General", Connections := ["10.0.0.7:40312"], WriteChan := [] },
              { Name := "Random", Connections := [], WriteChan := [] }],
    LogFile := [] }

/-- An iteration in which the client sends `/xau` and then `reply` to the room list. -/
def leaveTurn (reply : Option String) : Turn :=
  { line := some "/xau", now := "3:04PM", helpOk := true, newName := none,
    select := { sendOk := true, reply := reply } }

/-- An iteration in which the client sends `/nome` and then `newName` as the new name. -/
def renameTurn (newName : String) : Turn :=
  { line := some "/nome", now := "3:04PM", helpOk := true, newName := some newName,
    select := { sendOk := true, reply := none } }

/-- An iteration in which the read of the next line fails (the client has gone). -/
def hangUpTurn : Turn :=
  { line := none, now := "3:04PM", helpOk := true, newName := none,
    select := { sendOk := true, reply := none } }

/-! ## Decimal text and `Atoi` -/

theorem digitChar_toNat (d : Nat) (h : d < 10) : (Nat.digitChar d).toNat = 48 + d := by
  interval_cases d <;> rfl

theorem parseDigits_digitChar (d : Nat) (h : d < 10) (rest : List Char) (v : Nat) :
    parseDigits (Nat.digitChar d :: rest) v = parseDigits rest (v * 10 + d) := by
  have hc := digitChar_toNat d h
  have hdig : 48 ≤ (Nat.digitChar d).toNat ∧ (Nat.digitChar d).toNat ≤ 57 := by omega
  have hv : (Nat.digitChar d).toNat - 48 = d := by omega
  rw [parseDigits, if_pos hdig, hv]

/-- The digits core prints are a non-empty run of decimal digits in front of the
accumulator, and the digit loop of `Atoi` reads the number back from them. -/
theorem toDigitsCore_parse (fuel : Nat) : ∀ (n : Nat) (acc : List Char), n < fuel →
    ∃ ds : List Char, ∃ k : Nat, Nat.toDigitsCore 10 fuel n acc = ds ++ acc ∧ ds ≠ [] ∧
      (∀ ch ∈ ds, 48 ≤ ch.toNat ∧ ch.toNat ≤ 57) ∧
      ∀ (rest : List Char) (v : Nat), parseDigits (ds ++ rest) v = parseDigits rest (v * k + n) := by
  induction fuel with
  | zero => intro n acc h; omega
  | succ fuel ih =>
    intro n acc h
    have hd : n % 10 < 10 := Nat.mod_lt _ (by decide)
    have hc := digitChar_toNat (n % 10) hd
    have hdig : 48 ≤ (Nat.digitChar (n % 10)).toNat ∧ (Nat.digitChar (n % 10)).toNat ≤ 57 := by
      omega
    by_cases h0 : n / 10 = 0
    · refine ⟨[Nat.digitChar (n % 10)], 10, ?_, by simp, ?_, ?_⟩
      · simp [Nat.toDigitsCore, h0]
      · intro ch hch
        simp only [List.mem_singleton] at hch
        subst hch; exact hdig
      · intro rest v
        have hn : n % 10 = n := by omega
        rw [List.singleton_append, parseDigits_digitChar _ hd, hn]
    · obtain ⟨ds, k, he, hne, hall, hp⟩ := ih (n / 10) (Nat.digitChar (n % 10) :: acc) (by omega)
      refine ⟨ds ++ [Nat.digitChar (n % 10)], k * 10, ?_, by simp, ?_, ?_⟩
      · simp [Nat.toDigitsCore, h0, he]
      · intro ch hch
        rcases List.mem_append.1 hch with h1 | h1
        · exact hall ch h1
        · simp only [List.mem_singleton] at h1
          subst h1; exact hdig
      · intro rest v
        rw [List.append_assoc, hp, List.singleton_append, parseDigits_digitChar _ hd]
        have e : (v * k + n / 10) * 10 + n % 10 = v * (k * 10) + n := by
          have := Nat.div_add_mod n 10
          have e2 : (v * k + n / 10) * 10 = v * (k * 10) + 10 * (n / 10) := by ring
          omega
        rw [e]

theorem fmtInt_natCast_data (n : Nat) : (fmtInt (n : Int)).data = Nat.toDigits 10 n := rfl

/-- Parsing back the decimal text of a natural number that fits `int` gives the number. -/
theorem Atoi_fmtInt (n : Nat) (h : n < 2 ^ 63) : Atoi (fmtInt (n : Int)) = some (n : Int) := by
  obtain ⟨ds, k, he, hne, hall, hp⟩ := toDigitsCore_parse (n + 1) n [] (Nat.lt_succ_self n)
  have hdata : (fmtInt (n : Int)).data = ds := by
    rw [fmtInt_natCast_data, Nat.toDigits, he, List.append_nil]
  cases ds with
  | nil => exact absurd rfl hne
  | cons ch rest =>
    have hch := hall ch (List.mem_cons_self _ _)
    have h1 : ch ≠ '-' := by
      intro e; subst e; revert hch; decide
    have h2 : ch ≠ '+' := by
      intro e; subst e; revert hch; decide
    have hparse : parseDigits (ch :: rest) 0 = some n := by
      have := hp [] 0
      simpa [parseDigits] using this
    have hr : (n : Int) < 2 ^ 63 := by exact_mod_cast h
    have hl : -(2 : Int) ^ 63 ≤ (n : Int) := by
      have : (0 : Int) ≤ (n : Int) := Int.ofNat_nonneg n
      omega
    unfold Atoi
    rw [hdata]
    simp only [h1, h2, or_self, if_false, hparse, reduceCtorEq]
    rw [if_pos ⟨hl, hr⟩]

/-- The decimal text of a natural number that fits `int` is not the empty string. -/
theorem fmtInt_ne_empty (n : Nat) (h : n < 2 ^ 63) : fmtInt (n : Int) ≠ "" := by
  intro e
  have := Atoi_fmtInt n h
  have h0 : Atoi "" = none := rfl
  rw [e, h0] at this
  exact Option.noConfusion this

theorem fmtInt_negSucc_data (m : Nat) :
    (fmtInt (Int.negSucc m)).data = '-' :: Nat.toDigits 10 (m + 1) := rfl

/-- Whatever `Atoi` makes of the decimal text of an integer, it is that integer. -/
theorem Atoi_fmtInt_some (i j : Int) (h : Atoi (fmtInt i) = some j) : j = i := by
  cases i with
  | ofNat n =>
    by_cases hn : n < 2 ^ 63
    · have := Atoi_fmtInt n hn
      rw [Int.ofNat_eq_coe] at h
      rw [this] at h
      exact (Option.some.inj h).symm
    · exfalso
      obtain ⟨ds, k, he, hne, hall, hp⟩ := toDigitsCore_parse (n + 1) n [] (Nat.lt_succ_self n)
      have hdata : (fmtInt (Int.ofNat n)).data = ds := by
        rw [Int.ofNat_eq_coe, fmtInt_natCast_data, Nat.toDigits, he, List.append_nil]
      cases ds with
      | nil => exact absurd rfl hne
      | cons ch rest =>
        have hch := hall ch (List.mem_cons_self _ _)
        have h1 : ch ≠ '-' := by
          intro e; subst e; revert hch; decide
        have h2 : ch ≠ '+' := by
          intro e; subst e; revert hch; decide
        have hparse : parseDigits (ch :: rest) 0 = some n := by
          have := hp [] 0
          simpa [parseDigits] using this
        have hr : ¬ ((n : Int) < 2 ^ 63) := by
          intro hlt
          exact hn (by exact_mod_cast hlt)
        unfold Atoi at h
        rw [hdata] at h
        simp only [h1, h2, or_self, if_false, hparse, reduceCtorEq] at h
        rw [if_neg (fun hc => hr hc.2)] at h
        exact Option.noConfusion h
  | negSucc m =>
    obtain ⟨ds, k, he, hne, hall, hp⟩ :=
      toDigitsCore_parse (m + 1 + 1) (m + 1) [] (Nat.lt_succ_self _)
    have hdata : (fmtInt (Int.negSucc m)).data = '-' :: ds := by
      rw [fmtInt_negSucc_data, Nat.toDigits, he, List.append_nil]
    have hparse : parseDigits ds 0 = some (m + 1) := by
      have := hp [] 0
      simpa [parseDigits] using this
    unfold Atoi at h
    rw [hdata] at h
    simp only [true_or, if_true, hne, if_false, hparse] at h
    by_cases hr : -(2 : Int) ^ 63 ≤ -((m + 1 : Nat) : Int) ∧ -((m + 1 : Nat) : Int) < 2 ^ 63
    · rw [if_pos hr] at h
      have := Option.some.inj h
      rw [← this, Int.negSucc_eq]
      push_cast
      ring
    · rw [if_neg hr] at h
      exact Option.noConfusion h

/-! ## `SelectRoom` -/

theorem SelectRoom_cases (s : Server) (c : Connection) (env : SelectEnv) :
    (∃ sent e, s.SelectRoom c env = .done (s, { c with Sent := sent }, some e) ∧
        (e = .invalidRoom → ∃ text i, env.reply = some text ∧ Atoi text = some i ∧
          (i > (s.Rooms.length : Int) ∨ i < 0))) ∨
    (s.SelectRoom c env = .panic .selectRoom ∧
        ∃ text, env.sendOk = true ∧ env.reply = some text ∧
          Atoi text = some (s.Rooms.length : Int)) ∨
    (∃ sent text, ∃ i : Nat, ∃ r : Room, env.sendOk = true ∧ env.reply = some text ∧
        Atoi text = some (i : Int) ∧ s.Rooms[i]? = some r ∧
        s.SelectRoom c env =
          .done ({ s with Rooms := s.Rooms.set i (r.AddUser c) },
                 { c with Sent := sent, Room := (i : Int) }, none)) := by
  unfold Server.SelectRoom
  cases hs : env.sendOk with
  | false =>
    left
    exact ⟨_, .send, by simp [Connection.SendMessage, hs]; rfl, by simp⟩
  | true =>
    cases hr : env.reply with
    | none =>
      left
      exact ⟨_, .read, by simp [Connection.SendMessage, Connection.SendWithResponse, hs, hr]; rfl,
        by simp⟩
    | some text =>
      by_cases he : text = ""
      · left
        exact ⟨_, .noRoom,
          by simp [Connection.SendMessage, Connection.SendWithResponse, Connection.SendError,
            hs, hr, he]; rfl, by simp⟩
      · cases ha : Atoi text with
        | none =>
          left
          exact ⟨_, .notNumber,
            by simp [Connection.SendMessage, Connection.SendWithResponse, hs, hr, he, ha]; rfl,
            by simp⟩
        | some idx =>
          by_cases hb : idx > (s.Rooms.length : Int) ∨ idx < 0
          · left
            exact ⟨_, .invalidRoom,
              by simp [Connection.SendMessage, Connection.SendWithResponse, hs, hr, he, ha, hb]; rfl,
              fun _ => ⟨text, idx, rfl, ha, hb⟩⟩
          · right
            have h0 : 0 ≤ idx := by omega
            obtain ⟨i, rfl⟩ := Int.eq_ofNat_of_zero_le h0
            have hi : i ≤ s.Rooms.length := by omega
            cases hl : s.Rooms[i]? with
            | none =>
              left
              have : s.Rooms.length ≤ i := List.getElem?_eq_none_iff.1 hl
              have hi2 : i = s.Rooms.length := by omega
              subst hi2
              exact ⟨by simp [Connection.SendMessage, Connection.SendWithResponse, hs, hr, he,
                ha, hb, hl], text, rfl, rfl, ha⟩
            | some r =>
              right
              have hb1 : ¬ (s.Rooms.length < i) := by omega
              have hb2 : ¬ ((i : Int) < 0) := by omega
              exact ⟨c.Sent ++ [selectHeadline, s.ListRooms], text, i, r, rfl, rfl, ha, hl,
                by simp [Connection.SendMessage, Connection.SendWithResponse, hs, hr, he,
                  ha, hb1, hb2, hl, Room.AddUser]⟩

/-- With the decimal text of an index below the room count as the reply and no transport
failure, `SelectRoom` returns `nil`, having added the session to that room and set its
room index. -/
theorem SelectRoom_of_index (s : Server) (c : Connection) (env : SelectEnv) (i : Nat)
    (hlen : s.Rooms.length < 2 ^ 63) (hi : i < s.Rooms.length)
    (hsend : env.sendOk = true) (hreply : env.reply = some (fmtInt (i : Int))) :
    ∃ r, s.Rooms[i]? = some r ∧
      s.SelectRoom c env =
        .done ({ s with Rooms := s.Rooms.set i (r.AddUser c) },
               { c with Sent := c.Sent ++ [selectHeadline, s.ListRooms], Room := (i : Int) },
               none) := by
  have ha := Atoi_fmtInt i (by omega)
  have he := fmtInt_ne_empty i (by omega)
  have hl : s.Rooms[i]? = some (s.Rooms[i]) := List.getElem?_eq_getElem hi
  have hb1 : ¬ (s.Rooms.length < i) := by omega
  have hb2 : ¬ ((i : Int) < 0) := by omega
  refine ⟨s.Rooms[i], hl, ?_⟩
  unfold Server.SelectRoom
  simp [Connection.SendMessage, Connection.SendWithResponse, hsend, hreply, he, ha, hb1, hb2,
    hl, Room.AddUser]

/-- With the decimal text of the room count itself as the reply, `SelectRoom` passes the
bound check of line 62 and the lookup of line 66 panics. -/
theorem SelectRoom_of_length (s : Server) (c : Connection) (env : SelectEnv)
    (hlen : s.Rooms.length < 2 ^ 63)
    (hsend : env.sendOk = true) (hreply : env.reply = some (fmtInt (s.Rooms.length : Int))) :
    s.SelectRoom c env = .panic .selectRoom := by
  have ha := Atoi_fmtInt s.Rooms.length hlen
  have he := fmtInt_ne_empty s.Rooms.length hlen
  unfold Server.SelectRoom
  simp [Connection.SendMessage, Connection.SendWithResponse, hsend, hreply, he, ha]

/-! ## Rooms after an update -/

theorem members_set_self (s : Server) (i : Nat) (r : Room) (hi : i < s.Rooms.length) :
    ({ s with Rooms := s.Rooms.set i r } : Server).members i = r.Connections := by
  simp [Server.members, List.getElem?_set_self hi]

theorem members_set_ne (s : Server) (i j : Nat) (r : Room) (hne : i ≠ j) :
    ({ s with Rooms := s.Rooms.set i r } : Server).members j = s.members j := by
  simp [Server.members, List.getElem?_set_ne hne]

theorem queue_set_self (s : Server) (i : Nat) (r : Room) (hi : i < s.Rooms.length) :
    ({ s with Rooms := s.Rooms.set i r } : Server).queue i = r.WriteChan := by
  simp [Server.queue, List.getElem?_set_self hi]

theorem mem_AddUser (r : Room) (c : Connection) (m : String) :
    m ∈ (r.AddUser c).Connections ↔ m ∈ r.Connections ∨ m = c.Conn := by
  unfold Room.AddUser
  by_cases h : c.Conn ∈ r.Connections
  · simp only [h, if_true]
    constructor
    · intro hm; exact Or.inl hm
    · rintro (hm | hm)
      · exact hm
      · subst hm; exact h
  · simp [h]

theorem foldl_append_acc (l : List String) : ∀ acc : String,
    l.foldl (fun r t => r ++ t) acc = acc ++ l.foldl (fun r t => r ++ t) "" := by
  induction l with
  | nil => intro acc; simp
  | cons a l ih =>
    intro acc
    simp only [List.foldl_cons]
    rw [ih (acc ++ a), ih ("" ++ a), String.empty_append, String.append_assoc]

theorem join_cons (a : String) (l : List String) :
    String.join (a :: l) = a ++ String.join l := by
  unfold String.join
  rw [List.foldl_cons, foldl_append_acc, String.empty_append]

theorem listRoomsFrom_eq (rooms : List Room) : ∀ (i : Nat) (str : String),
    listRoomsFrom rooms i str =
      str ++ String.join ((rooms.enumFrom i).map
        (fun p => "\t" ++ fmtInt (p.1 : Int) ++ ": " ++ p.2.Name ++ "\n")) := by
  induction rooms with
  | nil => intro i str; simp [listRoomsFrom, String.join]
  | cons room rest ih =>
    intro i str
    rw [listRoomsFrom, ih, List.enumFrom_cons, List.map_cons, join_cons, String.append_assoc]

/-! ## `HandleCommands` and `HandleMessages` -/

theorem roomAt_of_InBounds (s : Server) (c : Connection) (hb : InBounds s c) :
    ∃ r, s.roomAt c.Room = some r ∧ s.Rooms[c.Room.toNat]? = some r ∧
      c.Room.toNat < s.Rooms.length := by
  obtain ⟨h0, h1⟩ := hb
  have hlt : c.Room.toNat < s.Rooms.length := by omega
  refine ⟨s.Rooms[c.Room.toNat], ?_, List.getElem?_eq_getElem hlt, hlt⟩
  simp [Server.roomAt, h0, List.getElem?_eq_getElem hlt]

theorem HandleCommands_nome (s : Server) (c : Connection) (t : Turn) :
    s.HandleCommands "/nome" c t =
      match t.newName with
      | none => .done (s, { c with Sent := c.Sent ++ ["Novo nome: "] }, true)
      | some newName =>
        match s.roomAt c.Room with
        | none => .panic .rename
        | some r =>
          .done (s.setRoom c.Room (r.WriteMessage (renameNotice c.UserName newName)),
                 { c with Sent := c.Sent ++ ["Novo nome: "], UserName := newName }, true) := by
  cases h : t.newName <;> simp [Server.HandleCommands, Connection.SendWithResponse, h]

theorem HandleCommands_other (s : Server) (c : Connection) (t : Turn) (text : String)
    (h1 : text ≠ "/ajuda") (h2 : text ≠ "/nome") (h3 : text ≠ "/xau") (h4 : text ≠ "/sair") :
    s.HandleCommands text c t = .done (s, c, false) := by
  simp [Server.HandleCommands, h1, h2, h3, h4]

/-- One iteration of the messaging loop on a line that is not a command. -/
theorem HandleMessages_chat (s : Server) (c : Connection) (t : Turn) (text : String) (room : Room)
    (hopen : c.Open = true) (hline : t.line = some text)
    (h1 : text ≠ "/ajuda") (h2 : text ≠ "/nome") (h3 : text ≠ "/xau") (h4 : text ≠ "/sair")
    (hroom : s.roomAt c.Room = some room) :
    s.HandleMessages c [t] =
      .done ({ Rooms := s.Rooms.set c.Room.toNat
                 (room.WriteMessage (chatLine t.now c.UserName text)),
               LogFile := s.LogFile ++ [logRecord room.Name (chatLine t.now c.UserName text)] },
             { c with Sent := c.Sent ++ [">> "] }) := by
  have hc := fun c0 => HandleCommands_other s c0 t text h1 h2 h3 h4
  simp [Server.HandleMessages, Connection.SendWithResponse, hopen, hline, hc, hroom,
    Server.setRoom]

theorem InBounds_setRoom (s : Server) (c : Connection) (i : Int) (r : Room)
    (hb : InBounds s c) : InBounds (s.setRoom i r) c := by
  unfold InBounds Server.setRoom
  simpa using hb

/-! ## Membership and the room reference -/

/-- Handing a message to the channel of the room at the room index of the connection
appends it to the queue of that room and changes neither another room nor any
membership set. -/
theorem setRoom_WriteMessage (s : Server) (i : Nat) (room : Room) (text : String)
    (hroom : s.Rooms[i]? = some room) :
    ({ s with Rooms := s.Rooms.set i (room.WriteMessage text) } : Server).queue i =
        s.queue i ++ [text] ∧
    (∀ j, j ≠ i →
      ({ s with Rooms := s.Rooms.set i (room.WriteMessage text) } : Server).Rooms[j]? =
        s.Rooms[j]?) ∧
    (∀ j, ({ s with Rooms := s.Rooms.set i (room.WriteMessage text) } : Server).members j =
        s.members j) := by
  have hi : i < s.Rooms.length := (List.getElem?_eq_some_iff.1 hroom).1
  refine ⟨?_, ?_, ?_⟩
  · rw [queue_set_self s i _ hi]
    simp [Server.queue, hroom, Room.WriteMessage]
  · intro j hj
    exact List.getElem?_set_ne (Ne.symm hj)
  · intro j
    by_cases hj : i = j
    · subst hj
      rw [members_set_self s i _ hi]
      simp [Server.members, hroom, Room.WriteMessage]
    · exact members_set_ne s i j _ hj

/-! ## The room reference and the membership sets agree -/

/-- C1, as the code behaves: for every room list and every integer index whose decimal
text is the reply, an index below zero or above the room count is rejected (`SelectRoom`
returns an error and leaves the server, hence every membership, as it was), but the
index equal to the room count is not: the check `roomIndex > len(s.Rooms)` lets it
through and the lookup `s.Rooms[roomIndex]` panics instead of an error being returned. -/
theorem SelectRoom_out_of_range (s : Server) (c : Connection) (env : SelectEnv) (i : Int)
    (hlen : s.Rooms.length < 2 ^ 63) (hsend : env.sendOk = true)
    (hreply : env.reply = some (fmtInt i)) :
    (i = (s.Rooms.length : Int) → s.SelectRoom c env = .panic .selectRoom) ∧
    (i < 0 ∨ i > (s.Rooms.length : Int) →
      ∃ sent e, s.SelectRoom c env = .done (s, { c with Sent := sent }, some e)) := by
  constructor
  · intro hi
    subst hi
    exact SelectRoom_of_length s c env hlen hsend hreply
  · intro hi
    rcases SelectRoom_cases s c env with ⟨sent, e, h, _⟩ | ⟨_, text, _, ht, ha⟩ |
      ⟨sent, text, j, r, _, ht, ha, hr, _⟩
    · exact ⟨sent, e, h⟩
    · rw [hreply] at ht
      cases ht
      have := Atoi_fmtInt_some i _ ha
      omega
    · rw [hreply] at ht
      cases ht
      have := Atoi_fmtInt_some i _ ha
      have hj : j < s.Rooms.length := (List.getElem?_eq_some_iff.1 hr).1
      omega

theorem SelectRoom_out_of_range_witness :
    (sampleServer.Rooms.length < 2 ^ 63 ∧ fmtInt 2 = "2" ∧ fmtInt (-1) = "-1" ∧
      (2 : Int) = (sampleServer.Rooms.length : Int) ∧ ((-1 : Int) < 0 ∨
        (-1 : Int) > (sampleServer.Rooms.length : Int))) ∧
    sampleServer.SelectRoom freshConn { sendOk := true, reply := some "2" } =
      .panic .selectRoom ∧
    ∃ sent e, sampleServer.SelectRoom freshConn { sendOk := true, reply := some "-1" } =
      .done (sampleServer, { freshConn with Sent := sent }, some e) :=
  ⟨⟨by decide, by decide, by decide, by decide, by decide⟩,
    (SelectRoom_out_of_range sampleServer freshConn { sendOk := true, reply := some "2" } 2
      (by decide) rfl rfl).1 (by decide),
    (SelectRoom_out_of_range sampleServer freshConn { sendOk := true, reply := some "-1" } (-1)
      (by decide) rfl (by decide)).2 (by decide)⟩

/-- C3: for every room list and every index `i` below the room count, `SelectRoom`, given
the decimal text of `i` as the reply and no transport failure, returns `nil`, sets the
room index of the connection to `i`, adds the session to the members of room `i`
(keeping the members it had) and leaves every other room as it was. -/
theorem SelectRoom_joins_selected_room (s : Server) (c : Connection) (env : SelectEnv) (i : Nat)
    (hi : i < s.Rooms.length) (hlen : s.Rooms.length < 2 ^ 63)
    (hsend : env.sendOk = true) (hreply : env.reply = some (fmtInt (i : Int))) :
    ∃ s1 c1, s.SelectRoom c env = .done (s1, c1, none) ∧
      c1.Room = (i : Int) ∧ c1.Conn = c.Conn ∧
      c.Conn ∈ s1.members i ∧
      (∀ m, m ∈ s1.members i ↔ m ∈ s.members i ∨ m = c.Conn) ∧
      (∀ j, j ≠ i → s1.Rooms[j]? = s.Rooms[j]?) ∧
      s1.Rooms.map Room.Name = s.Rooms.map Room.Name := by
  obtain ⟨r, hr, hrun⟩ := SelectRoom_of_index s c env i hlen hi hsend hreply
  have hmem : ∀ m, m ∈ ({ s with Rooms := s.Rooms.set i (r.AddUser c) } : Server).members i ↔
      m ∈ s.members i ∨ m = c.Conn := by
    intro m
    rw [members_set_self s i _ hi, mem_AddUser]
    simp [Server.members, hr]
  refine ⟨_, _, hrun, rfl, rfl, (hmem c.Conn).2 (Or.inr rfl), hmem, ?_, ?_⟩
  · intro j hj
    exact List.getElem?_set_ne (Ne.symm hj)
  · apply List.ext_getElem?
    intro j
    by_cases hj : i = j
    · subst hj
      have hri : s.Rooms[i] = r := by
        obtain ⟨_, h⟩ := List.getElem?_eq_some_iff.1 hr
        exact h
      simp [List.getElem?_set_self, hi, hr, hri, Room.AddUser]
    · simp [List.getElem?_set_ne hj]

theorem SelectRoom_joins_selected_room_witness :
    (0 < sampleServer.Rooms.length ∧ sampleServer.Rooms.length < 2 ^ 63 ∧
      fmtInt ((0 : Nat) : Int) = "0") ∧
    ∃ s1 c1, sampleServer.SelectRoom { freshConn with UserName := "Ana" }
        { sendOk := true, reply := some "0" } = .done (s1, c1, none) ∧
      c1.Room = ((0 : Nat) : Int) ∧ c1.Conn = freshConn.Conn ∧
      freshConn.Conn ∈ s1.members 0 ∧
      (∀ m, m ∈ s1.members 0 ↔ m ∈ sampleServer.members 0 ∨ m = freshConn.Conn) ∧
      (∀ j, j ≠ 0 → s1.Rooms[j]? = sampleServer.Rooms[j]?) ∧
      s1.Rooms.map Room.Name = sampleServer.Rooms.map Room.Name :=
  ⟨⟨by decide, by decide, by decide⟩,
    SelectRoom_joins_selected_room sampleServer { freshConn with UserName := "Ana" }
      { sendOk := true, reply := some "0" } 0 (by decide) (by decide) rfl rfl⟩

/-- C9: for every room list, `ListRooms` returns the header followed by one line per room,
in the order of the list, each made of a tab, the decimal text of the 0-based index of the
room, a colon and a space, the room name and a newline, and nothing else; and the text
printed in front of a room, given back to `SelectRoom` as the reply, is parsed to the
index of that room and joins that room. -/
theorem ListRooms_lists_rooms_by_index (s : Server) :
    s.ListRooms = "Salas disponiveis:\n" ++ String.join (s.Rooms.enum.map
        (fun p => "\t" ++ fmtInt (p.1 : Int) ++ ": " ++ p.2.Name ++ "\n")) ∧
    ∀ (i : Nat) (r : Room), s.Rooms[i]? = some r → s.Rooms.length < 2 ^ 63 →
      Atoi (fmtInt (i : Int)) = some (i : Int) ∧
      ∀ (c : Connection) (env : SelectEnv), env.sendOk = true →
        env.reply = some (fmtInt (i : Int)) →
        ∃ sent, s.SelectRoom c env =
          .done ({ s with Rooms := s.Rooms.set i (r.AddUser c) },
                 { c with Sent := sent, Room := (i : Int) }, none) := by
  refine ⟨listRoomsFrom_eq s.Rooms 0 _, ?_⟩
  intro i r hr hlen
  have hi : i < s.Rooms.length := (List.getElem?_eq_some_iff.1 hr).1
  refine ⟨Atoi_fmtInt i (by omega), ?_⟩
  intro c env hsend hreply
  obtain ⟨r1, hr1, hrun⟩ := SelectRoom_of_index s c env i hlen hi hsend hreply
  rw [hr] at hr1
  cases hr1
  exact ⟨_, hrun⟩

theorem ListRooms_lists_rooms_by_index_witness :
    sampleServer.ListRooms = "Salas disponiveis:\n\t0: General\n\t1: Random\n" ∧
    Atoi "1" = some 1 ∧
    ∃ sent, sampleServer.SelectRoom freshConn { sendOk := true, reply := some "1" } =
      .done ({ Rooms := [{ Name := "General", Connections := [], WriteChan := [] },
                         { Name := "Random", Connections := [freshConn.Conn], WriteChan := [] }],
               LogFile := [] },
             { freshConn with Sent := sent, Room := 1 }, none) :=
  ⟨(ListRooms_lists_rooms_by_index sampleServer).1,
    ((ListRooms_lists_rooms_by_index sampleServer).2 1
      { Name := "Random", Connections := [], WriteChan := [] } rfl (by decide)).1,
    ((ListRooms_lists_rooms_by_index sampleServer).2 1
      { Name := "Random", Connections := [], WriteChan := [] } rfl (by decide)).2
      freshConn { sendOk := true, reply := some "1" } rfl rfl⟩

/-- C2, as the code behaves: the `/ajuda` branch has no `return true` after a successful
write of the help text, so `HandleCommands` returns false and the same iteration of
`HandleMessages` broadcasts the line `/ajuda` to the room as a chat message and writes
the record to the message log. -/
theorem help_command_line_is_broadcast :
    anaServer.HandleCommands "/ajuda" anaConn (lineTurn "/ajuda") =
      .done (anaServer, { anaConn with Sent := [helpMessage] }, false) ∧
    anaServer.HandleMessages anaConn [lineTurn "/ajuda"] =
      .done ({ Rooms := [{ Name := "General", Connections := ["10.0.0.7:40312"],
                           WriteChan := ["<3:04PM> (Ana): /ajuda\n"] },
                         { Name := "Random", Connections := [], WriteChan := [] }],
               LogFile := ["General: <3:04PM> (Ana): /ajuda\n"] },
             { anaConn with Sent := [">> ", helpMessage] }) := by
  constructor <;> decide

/-- C4, as the code behaves: the `/xau` branch drops the error `SelectRoom` returns. After
the name `Ana`, the room `0`, the line `/xau` and the non-numeric reply `abc`, the
session is not closed and the loop issues the prompt `>> ` again (here the read that
follows fails), although the session is a member of no room. -/
theorem failed_reselection_does_not_end_session :
    ∃ s1 c1, sampleServer.HandleConnection freshConn (some "Ana")
        { sendOk := true, reply := some "0" } [leaveTurn (some "abc"), hangUpTurn] =
        .done (s1, c1) ∧
      c1.Open = true ∧
      c1.Sent = ["Nome desejado: ", selectHeadline, sampleServer.ListRooms, ">> ",
                 selectHeadline, sampleServer.ListRooms, ">> "] ∧
      s1.members 0 = [] ∧ s1.members 1 = [] :=
  ⟨_, _, rfl, by decide, by decide, by decide, by decide⟩

/-- C6: for every session with display name `old` whose room index designates a room and
every new name read after `/nome`, `HandleCommands` returns true, hands to the channel of
that room, and of no other, exactly the notice `Usuario old mudou o nome para new`, makes
the new name the display name and leaves the room index and the memberships as they
were; the next chat line of the session carries the new name. -/
theorem rename_announces_and_replaces_name (s : Server) (c : Connection) (t : Turn)
    (newName : String) (hb : InBounds s c) (hnew : t.newName = some newName) :
    ∃ s1 c1, s.HandleCommands "/nome" c t = .done (s1, c1, true) ∧
      c1.UserName = newName ∧ c1.Room = c.Room ∧ c1.Open = c.Open ∧ c1.Conn = c.Conn ∧
      s1.queue c.Room.toNat = s.queue c.Room.toNat ++
        ["Usuario " ++ c.UserName ++ " mudou o nome para " ++ newName ++ "\n"] ∧
      (∀ j, j ≠ c.Room.toNat → s1.Rooms[j]? = s.Rooms[j]?) ∧
      (∀ j, s1.members j = s.members j) ∧
      s1.LogFile = s.LogFile ∧
      ∀ (t2 : Turn) (text : String), c.Open = true → t2.line = some text →
        text ≠ "/ajuda" → text ≠ "/nome" → text ≠ "/xau" → text ≠ "/sair" →
        ∃ s2 c2, s1.HandleMessages c1 [t2] = .done (s2, c2) ∧
          s2.queue c.Room.toNat = s1.queue c.Room.toNat ++
            ["<" ++ t2.now ++ "> (" ++ newName ++ "): " ++ text ++ "\n"] := by
  obtain ⟨room, hroom, hget, hlt⟩ := roomAt_of_InBounds s c hb
  have hrun := HandleCommands_nome s c t
  simp only [hnew, hroom] at hrun
  obtain ⟨hq, hother, hmem⟩ :=
    setRoom_WriteMessage s c.Room.toNat room (renameNotice c.UserName newName) hget
  refine ⟨_, _, hrun, rfl, rfl, rfl, rfl, hq, hother, hmem, rfl, ?_⟩
  intro t2 text hopen hline h1 h2 h3 h4
  have hb1 : InBounds (s.setRoom c.Room (room.WriteMessage (renameNotice c.UserName newName)))
      { c with Sent := c.Sent ++ ["Novo nome: "], UserName := newName } :=
    InBounds_setRoom s _ _ _ hb
  obtain ⟨room1, hroom1, hget1, _⟩ := roomAt_of_InBounds _ _ hb1
  refine ⟨_, _, HandleMessages_chat _ _ t2 text room1 hopen hline h1 h2 h3 h4 hroom1, ?_⟩
  exact (setRoom_WriteMessage _ c.Room.toNat room1 _ hget1).1

theorem rename_announces_and_replaces_name_witness :
    (InBounds anaServer anaConn ∧ (renameTurn "Ana2").newName = some "Ana2") ∧
    ∃ s1 c1, anaServer.HandleCommands "/nome" anaConn (renameTurn "Ana2") = .done (s1, c1, true) ∧
      c1.UserName = "Ana2" ∧ c1.Room = anaConn.Room ∧ c1.Open = anaConn.Open ∧
      c1.Conn = anaConn.Conn ∧
      s1.queue anaConn.Room.toNat = anaServer.queue anaConn.Room.toNat ++
        ["Usuario " ++ anaConn.UserName ++ " mudou o nome para " ++ "Ana2" ++ "\n"] ∧
      (∀ j, j ≠ anaConn.Room.toNat → s1.Rooms[j]? = anaServer.Rooms[j]?) ∧
      (∀ j, s1.members j = anaServer.members j) ∧
      s1.LogFile = anaServer.LogFile ∧
      ∀ (t2 : Turn) (text : String), anaConn.Open = true → t2.line = some text →
        text ≠ "/ajuda" → text ≠ "/nome" → text ≠ "/xau" → text ≠ "/sair" →
        ∃ s2 c2, s1.HandleMessages c1 [t2] = .done (s2, c2) ∧
          s2.queue anaConn.Room.toNat = s1.queue anaConn.Room.toNat ++
            ["<" ++ t2.now ++ "> (" ++ "Ana2" ++ "): " ++ text ++ "\n"] :=
  ⟨⟨by constructor <;> decide, rfl⟩,
    rename_announces_and_replaces_name anaServer anaConn (renameTurn "Ana2") "Ana2"
      (by constructor <;> decide) rfl⟩

/-- C7, as the code behaves: the `/nome` branch assigns the reply to `UserName` without
the emptiness test that `HandleConnection` applies to the first name. After the name
`Ana`, the room `0`, the line `/nome` and an empty reply, the session is open with the
empty string as its display name, and its next chat line is attributed to it. -/
theorem rename_to_empty_name_is_accepted :
    ∃ s1 c1, sampleServer.HandleConnection freshConn (some "Ana")
        { sendOk := true, reply := some "0" } [renameTurn "", lineTurn "oi"] = .done (s1, c1) ∧
      c1.Open = true ∧ c1.UserName = "" ∧
      s1.queue 0 = ["Usuario Ana mudou o nome para \n", "<3:04PM> (): oi\n"] :=
  ⟨_, _, rfl, by decide, by decide, by decide⟩

/-- C8: for every line read in the messaging loop that is not one of the four command
tokens, `HandleCommands` returns false and changes neither the session nor the server,
and the iteration of `HandleMessages` hands to the channel of the room of the sender, and
of no other, exactly one message made of the clock text between angle brackets, a
space, the display name in parentheses, a colon and a space, the line unchanged and a
newline, and appends to the message log exactly the room name, a colon and a space, and
that message. -/
theorem chat_line_is_broadcast_and_logged (s : Server) (c : Connection) (t : Turn)
    (text : String) (hopen : c.Open = true) (hline : t.line = some text)
    (h1 : text ≠ "/ajuda") (h2 : text ≠ "/nome") (h3 : text ≠ "/xau") (h4 : text ≠ "/sair")
    (hb : InBounds s c) :
    (∀ c0, s.HandleCommands text c0 t = .done (s, c0, false)) ∧
    ∃ room s1, s.roomAt c.Room = some room ∧
      s.HandleMessages c [t] = .done (s1, { c with Sent := c.Sent ++ [">> "] }) ∧
      s1.queue c.Room.toNat = s.queue c.Room.toNat ++
        ["<" ++ t.now ++ "> (" ++ c.UserName ++ "): " ++ text ++ "\n"] ∧
      (∀ j, j ≠ c.Room.toNat → s1.Rooms[j]? = s.Rooms[j]?) ∧
      (∀ j, s1.members j = s.members j) ∧
      s1.LogFile = s.LogFile ++
        [room.Name ++ ": " ++ ("<" ++ t.now ++ "> (" ++ c.UserName ++ "): " ++ text ++ "\n")] := by
  refine ⟨fun c0 => HandleCommands_other s c0 t text h1 h2 h3 h4, ?_⟩
  obtain ⟨room, hroom, hget, _⟩ := roomAt_of_InBounds s c hb
  obtain ⟨hq, hother, hmem⟩ :=
    setRoom_WriteMessage s c.Room.toNat room (chatLine t.now c.UserName text) hget
  exact ⟨room, _, hroom, HandleMessages_chat s c t text room hopen hline h1 h2 h3 h4 hroom,
    hq, hother, hmem, rfl⟩

theorem chat_line_is_broadcast_and_logged_witness :
    (anaConn.Open = true ∧ (lineTurn "oi gente").line = some "oi gente" ∧
      "oi gente" ≠ "/ajuda" ∧ "oi gente" ≠ "/nome" ∧ "oi gente" ≠ "/xau" ∧
      "oi gente" ≠ "/sair" ∧ InBounds anaServer anaConn) ∧
    ((∀ c0, anaServer.HandleCommands "oi gente" c0 (lineTurn "oi gente") =
        .done (anaServer, c0, false)) ∧
    ∃ room s1, anaServer.roomAt anaConn.Room = some room ∧
      anaServer.HandleMessages anaConn [lineTurn "oi gente"] =
        .done (s1, { anaConn with Sent := anaConn.Sent ++ [">> "] }) ∧
      s1.queue anaConn.Room.toNat = anaServer.queue anaConn.Room.toNat ++
        ["<" ++ (lineTurn "oi gente").now ++ "> (" ++ anaConn.UserName ++ "): " ++ "oi gente"
          ++ "\n"] ∧
      (∀ j, j ≠ anaConn.Room.toNat → s1.Rooms[j]? = anaServer.Rooms[j]?) ∧
      (∀ j, s1.members j = anaServer.members j) ∧
      s1.LogFile = anaServer.LogFile ++
        [room.Name ++ ": " ++ ("<" ++ (lineTurn "oi gente").now ++ "> (" ++ anaConn.UserName
          ++ "): " ++ "oi gente" ++ "\n")]) ∧
    anaServer.HandleMessages anaConn [lineTurn "oi gente"] =
      .done ({ Rooms := [{ Name := "General", Connections := ["10.0.0.7:40312"],
                           WriteChan := ["<3:04PM> (Ana): oi gente\n"] },
                         { Name := "Random", Connections := [], WriteChan := [] }],
               LogFile := ["General: <3:04PM> (Ana): oi gente\n"] },
             { anaConn with Sent := [">> "] }) :=
  ⟨⟨rfl, rfl, by decide, by decide, by decide, by decide, by constructor <;> decide⟩,
    chat_line_is_broadcast_and_logged anaServer anaConn (lineTurn "oi gente") "oi gente" rfl rfl
      (by decide) (by decide) (by decide) (by decide) (by constructor <;> decide),
    by decide⟩

end TelnetChat
